import Mathlib

set_option maxRecDepth 100000

/-!
Verification of `lutris_bulk_adder` (files `lutris_bulk_adder.py`, `__main__.py`).

The development shallowly embeds the program:
* `md5hex` models `hashlib.md5(...).hexdigest()` (RFC 1321, over UTF-8 bytes);
* string helpers model the `os.path` and `re` operations used by `main`;
* `scan_for_supported_files` models the directory scanner over an explicit
  filesystem tree;
* `processGame` models the per-file body of `main`'s loop (name derivation,
  slug/config construction, SQLite row contents);
* `runLoop` models the loop itself in both dry-run and live mode, with the
  SQLite `games` table represented as a list of rows;
* `mainRun` models the whole run (max-id query, scan, loop).
-/

/-- 32-bit truncation: Python/C arithmetic mod 2^32. -/
def w32 (n : Nat) : Nat := n % 4294967296

/-- 32-bit left rotation. -/
def rotl32 (x s : Nat) : Nat := w32 ((x <<< s) ||| (x >>> (32 - s)))

/-- UTF-8 encoding of one character (models `str.encode("utf-8")` per char). -/
def charUtf8 (c : Char) : List Nat :=
  let n := c.toNat
  if n < 128 then [n]
  else if n < 2048 then [192 ||| (n >>> 6), 128 ||| (n &&& 63)]
  else if n < 65536 then
    [224 ||| (n >>> 12), 128 ||| ((n >>> 6) &&& 63), 128 ||| (n &&& 63)]
  else
    [240 ||| (n >>> 18), 128 ||| ((n >>> 12) &&& 63),
     128 ||| ((n >>> 6) &&& 63), 128 ||| (n &&& 63)]

/-- UTF-8 bytes of a string (models `s.encode("utf-8")`). -/
def strUtf8 (s : String) : List Nat := s.data.flatMap charUtf8

/-- The MD5 sine-derived round constants K (RFC 1321). -/
def md5K : List Nat :=
  [0xd76aa478, 0xe8c7b756, 0x242070db, 0xc1bdceee,
   0xf57c0faf, 0x4787c62a, 0xa8304613, 0xfd469501,
   0x698098d8, 0x8b44f7af, 0xffff5bb1, 0x895cd7be,
   0x6b901122, 0xfd987193, 0xa679438e, 0x49b40821,
   0xf61e2562, 0xc040b340, 0x265e5a51, 0xe9b6c7aa,
   0xd62f105d, 0x02441453, 0xd8a1e681, 0xe7d3fbc8,
   0x21e1cde6, 0xc33707d6, 0xf4d50d87, 0x455a14ed,
   0xa9e3e905, 0xfcefa3f8, 0x676f02d9, 0x8d2a4c8a,
   0xfffa3942, 0x8771f681, 0x6d9d6122, 0xfde5380c,
   0xa4beea44, 0x4bdecfa9, 0xf6bb4b60, 0xbebfbc70,
   0x289b7ec6, 0xeaa127fa, 0xd4ef3085, 0x04881d05,
   0xd9d4d039, 0xe6db99e5, 0x1fa27cf8, 0xc4ac5665,
   0xf4292244, 0x432aff97, 0xab9423a7, 0xfc93a039,
   0x655b59c3, 0x8f0ccc92, 0xffeff47d, 0x85845dd1,
   0x6fa87e4f, 0xfe2ce6e0, 0xa3014314, 0x4e0811a1,
   0xf7537e82, 0xbd3af235, 0x2ad7d2bb, 0xeb86d391]

/-- The MD5 per-round left-rotation amounts (RFC 1321). -/
def md5S : List Nat :=
  [7, 12, 17, 22, 7, 12, 17, 22, 7, 12, 17, 22, 7, 12, 17, 22,
   5, 9, 14, 20, 5, 9, 14, 20, 5, 9, 14, 20, 5, 9, 14, 20,
   4, 11, 16, 23, 4, 11, 16, 23, 4, 11, 16, 23, 4, 11, 16, 23,
   6, 10, 15, 21, 6, 10, 15, 21, 6, 10, 15, 21, 6, 10, 15, 21]

/-- The MD5 nonlinear functions F, G, H, I selected by round index. -/
def md5F (i b c d : Nat) : Nat :=
  if i < 16 then (b &&& c) ||| ((4294967295 ^^^ b) &&& d)
  else if i < 32 then (d &&& b) ||| ((4294967295 ^^^ d) &&& c)
  else if i < 48 then b ^^^ c ^^^ d
  else c ^^^ (b ||| (4294967295 ^^^ d))

/-- The MD5 message-word index schedule. -/
def md5G (i : Nat) : Nat :=
  if i < 16 then i
  else if i < 32 then (5 * i + 1) % 16
  else if i < 48 then (3 * i + 5) % 16
  else (7 * i) % 16

/-- MD5 working state (A, B, C, D). -/
structure MD5State where
  a : Nat
  b : Nat
  c : Nat
  d : Nat
deriving DecidableEq, Repr

/-- Initial MD5 state (RFC 1321). -/
def md5Init : MD5State :=
  { a := 0x67452301, b := 0xefcdab89, c := 0x98badcfe, d := 0x10325476 }

/-- One MD5 round step on state `st` with message words `M` at round `i`. -/
def md5Round (M : List Nat) (st : MD5State) (i : Nat) : MD5State :=
  let f := md5F i st.b st.c st.d
  let tmp := w32 (st.a + f + md5K.getD i 0 + M.getD (md5G i) 0)
  { a := st.d, b := w32 (st.b + rotl32 tmp (md5S.getD i 0)), c := st.b, d := st.c }

/-- Decode a byte list into little-endian 32-bit words. -/
def leWords : List Nat → List Nat
  | b0 :: b1 :: b2 :: b3 :: rest =>
    (b0 + 256 * b1 + 65536 * b2 + 16777216 * b3) :: leWords rest
  | _ => []

/-- Little-endian byte decomposition, `k` bytes. -/
def leBytes : Nat → Nat → List Nat
  | 0, _ => []
  | k + 1, n => (n % 256) :: leBytes k (n / 256)

/-- MD5 padding: append `0x80`, zero bytes to 56 mod 64, then the 64-bit
little-endian bit length (RFC 1321). -/
def md5Pad (msg : List Nat) : List Nat :=
  let len := msg.length
  let z := (120 - ((len + 1) % 64)) % 64
  msg ++ [128] ++ List.replicate z 0 ++ leBytes 8 (8 * len)

/-- Process one 64-byte block. -/
def md5Block (st : MD5State) (block : List Nat) : MD5State :=
  let M := leWords block
  let r := (List.range 64).foldl (md5Round M) st
  { a := w32 (st.a + r.a), b := w32 (st.b + r.b),
    c := w32 (st.c + r.c), d := w32 (st.d + r.d) }

/-- Split a byte list into 64-byte chunks; `fuel` bounds the number of
chunks (any fuel at least the list length is enough). -/
def chunks64Fuel : Nat → List Nat → List (List Nat)
  | 0, _ => []
  | _, [] => []
  | fuel + 1, l => l.take 64 :: chunks64Fuel fuel (l.drop 64)

/-- Split a byte list into 64-byte chunks. -/
def chunks64 (l : List Nat) : List (List Nat) := chunks64Fuel l.length l

/-- Final MD5 state of a string's UTF-8 encoding. -/
def md5Quad (s : String) : MD5State :=
  (chunks64 (md5Pad (strUtf8 s))).foldl md5Block md5Init

/-- Lower-case hex digit. -/
def hexDigit (n : Nat) : Char :=
  if n < 10 then Char.ofNat (48 + n) else Char.ofNat (87 + n)

/-- Two-digit lower-case hex of a byte. -/
def byteHex (b : Nat) : List Char := [hexDigit (b / 16), hexDigit (b % 16)]

/-- Little-endian hex rendering of one 32-bit word. -/
def wordLEHex (w : Nat) : List Char :=
  byteHex (w % 256) ++ byteHex ((w >>> 8) % 256) ++
  byteHex ((w >>> 16) % 256) ++ byteHex ((w >>> 24) % 256)

/-- `hashlib.md5(s.encode("utf-8")).hexdigest()`. -/
def md5hex (s : String) : String :=
  let q := md5Quad s
  String.mk (wordLEHex q.a ++ wordLEHex q.b ++ wordLEHex q.c ++ wordLEHex q.d)

/-!
## String helpers modelling `os.path`, `str` methods and the `re`
operations used by `main`

They are written over `String.data` with structural recursion so that the
kernel can evaluate them on concrete inputs.
-/

/-- Python `str.lower()` (ASCII, as used on extensions and names here). -/
def strLower (s : String) : String := String.mk (s.data.map Char.toLower)

/-- Python `str.startswith(pre)`. -/
def strStartsWith (s pre : String) : Bool := pre.data.isPrefixOf s.data

/-- Python `str.endswith(suf)`. -/
def strEndsWith (s suf : String) : Bool :=
  suf.data.reverse.isPrefixOf s.data.reverse

/-- Python `str.replace(pat, rep)` for a nonempty pattern: replace
non-overlapping occurrences left to right.  `fuel` bounds the recursion;
any fuel at least the list length is enough. -/
def listReplaceFuel (pat rep : List Char) : Nat → List Char → List Char
  | 0, l => l
  | _, [] => []
  | fuel + 1, c :: rest =>
    if pat.isPrefixOf (c :: rest) then
      rep ++ listReplaceFuel pat rep fuel ((c :: rest).drop pat.length)
    else c :: listReplaceFuel pat rep fuel rest

/-- Python `str.replace(pat, rep)`, including the empty-pattern behaviour
(`rep` interleaved before every character and appended at the end). -/
def pyReplace (s pat rep : String) : String :=
  if pat.data = [] then
    String.mk (rep.data ++ s.data.flatMap (fun c => c :: rep.data))
  else String.mk (listReplaceFuel pat.data rep.data s.data.length s.data)

/-- `os.path.basename p`: the component after the last slash. -/
def basename (p : String) : String :=
  String.mk ((p.data.reverse.takeWhile (fun c => c ≠ '/')).reverse)

/-- `os.path.split(p)[0]`: the part before the last slash, with trailing
slashes stripped unless the head consists only of slashes (CPython
`posixpath.split`). Empty when `p` has no slash. -/
def pySplitHead (p : String) : String :=
  let cs := p.data
  let tailLen := (cs.reverse.takeWhile (fun c => c ≠ '/')).length
  if tailLen = cs.length then String.mk []
  else
    let h := cs.take (cs.length - tailLen)
    let h2 := (h.reverse.dropWhile (fun c => c = '/')).reverse
    if h2 = [] then String.mk h else String.mk h2

/-- `os.path.join a b` for the slash-separated paths produced by the scanner. -/
def pathJoin (a b : String) : String :=
  if strStartsWith b ("/") then b
  else if a = String.mk [] then b
  else if strEndsWith a ("/") then a ++ b
  else a ++ ("/") ++ b

/-- `name.split(os.extsep)[-1]`: the part after the last dot, or the whole
name when there is no dot. -/
def lastExtComponent (name : String) : String :=
  String.mk ((name.data.reverse.takeWhile (fun c => c ≠ '.')).reverse)

/-- `re.sub(r"\..*", "", s)`: everything from the first dot on is removed. -/
def stripFromFirstDot (s : String) : String :=
  String.mk (s.data.takeWhile (fun c => c ≠ '.'))

/-- Collapse whitespace runs to a single copy of `rep`; the `prevWs` flag
records whether the previous character was part of a whitespace run. -/
def collapseWsAux (rep : Char) : List Char → Bool → List Char
  | [], _ => []
  | c :: rest, prevWs =>
    if c.isWhitespace then
      if prevWs then collapseWsAux rep rest true
      else rep :: collapseWsAux rep rest true
    else c :: collapseWsAux rep rest false

/-- Strip every copy of `c` from both ends (Python `str.strip(c)`). -/
def stripChar (c : Char) (l : List Char) : List Char :=
  ((l.dropWhile (fun x => x = c)).reverse.dropWhile (fun x => x = c)).reverse

/-- `re.sub(r"\s+", " ", s).strip(" ")` (line 440 of the source). -/
def normalizeWs (s : String) : String :=
  String.mk (stripChar (' ') (collapseWsAux (' ') s.data false))

/-- Characters kept by `re.sub(r"[^0-9A-Za-z']", " ", ...)` (line 450). -/
def isSlugKeep (c : Char) : Bool :=
  (('0' ≤ c && c ≤ '9') || ('A' ≤ c && c ≤ 'Z') || ('a' ≤ c && c ≤ 'z')
    || c = '\'')

/-- Lines 450-452 of the source: replace every character outside
`[0-9A-Za-z']` by a space, delete apostrophes, collapse whitespace runs to
dashes, strip dashes at both ends, lower-case. -/
def slugify (game : String) : String :=
  let s1 := game.data.map (fun c => if isSlugKeep c then c else ' ')
  let s2 := s1.filter (fun c => c ≠ '\'')
  let s3 := stripChar ('-') (collapseWsAux ('-') s2 false)
  strLower (String.mk s3)

/-!
## Constants of the program (`lutris_bulk_adder.py` top of file)
-/

/-- `DEFAULT_ROM_FILE_EXTS` (lines 13-14). -/
def DEFAULT_ROM_FILE_EXTS : List String :=
  ["iso", "zip", "sfc", "gba", "gbc", "gb", "md", "n64",
   "nes", "32x", "gg", "sms", "bin", "exe"]

/-- `PLATFORMS` (lines 15-73).  The source list is missing a comma after
`Commodore VIC-20`, so Python concatenates it with the following literal
`J2ME` into one element; the embedding reproduces that. -/
def PLATFORMS : List String :=
  ["3DO", "Amstrad CPC", "Arcade", "Atari 2600", "Atari 7800",
   "Atari 800/5200", "Atari 8bit computers", "Atari Jaguar", "Atari Lynx",
   "Atari ST/STE/TT/Falcon", "Bandai WonderSwan", "ChaiLove",
   "Commodore 128", "Commodore 16/Plus/4", "Commodore 64",
   "Commodore VIC-20J2ME", "Magnavox Odyssey²", "MS-DOS",
   "MSX/MSX2/MSX2+", "NEC PC Engine (SuperGrafx)",
   "NEC PC Engine (TurboGrafx-16)", "NEC PC Engine TurboGrafx-16",
   "NEC PC-98", "NEC PC-FX", "Nintendo 3DS", "Nintendo DS",
   "Nintendo Game Boy (Color)", "Nintendo Game Boy Advance",
   "Nintendo Game Boy Color", "Nintendo GameCube", "Nintendo N64",
   "Nintendo NES", "Nintendo SNES", "Nintendo Virtual Boy", "Nintendo Wii",
   "Nintendo Wii/Gamecube", "Sega Dreamcast", "Sega Game Gear",
   "Sega Genesis", "Sega Genesis/Mega Drive", "Sega Maste System/Gamegear",
   "Sega Master System", "Sega Saturn", "Sharp X68000",
   "Sinclair ZX Spectrum", "Sinclair ZX81", "SNK Neo Geo Pocket (Color)",
   "SNK Neo Geo Pocket", "Sony PlayStation 2", "Sony PlayStation 3",
   "Sony PlayStation Portable", "Sony PlayStation", "Uzebox", "Vectrex",
   "Windows", "Z-Machine"]

/-- `IGNORE_TYPES` (lines 118-223): content-type prefixes never treated as
runnable. -/
def IGNORE_TYPES : List String :=
  ["7-zip archive data", "Algol 68 source", "Applesoft BASIC program data",
   "color profile 2.0", "Crunch compressed texture", "DOS batch file",
   "DOS executable (block device driver)", "DOS/MBR boot sector",
   "executable", "FLAC audio bitstream data", "IFF data", "InnoSetup Log",
   "Intel ia64 COFF object file", "ISO Media", "ISO-8859 text ",
   "ISO-8859 text", "Java archive data (JAR)", "Java KeyStore",
   "Mach-O 64-bit x86_64 bundle",
   "Mach-O 64-bit x86_64 dynamically linked shared library",
   "Microsoft color profile 2.1", "MPEG sequence",
   "MS Windows 95 Internet shortcut text (URL=<http://www.rapapuru.com/>)",
   "MS Windows 95 Internet shortcut",
   "MS Windows icon resource - 11 icons", "MS Windows icon resource",
   "NekoVM bytecode", "Ogg data", "OpenPGP Public Key",
   "OpenType font data /run/media/mmcblk0p1/deck_sync/HG/GenderBender/renpy/common/fa5.otf",
   "OpenType font data", "Paint.NET image data", "PC bitmap ", "PC bitmap",
   "PDF document", "python 3.8 byte-compiled", "raw G3 (Group 3) FAX",
   "RIFF (big-endian) data", "RIFF (little-endian) data",
   "Spectrum .TAP data", "Standard MIDI data ", "Standard MIDI data",
   "Sun KCMS color profile 2.0", "SysEx File", "Targa image data",
   "TTComp archive data", "Unicode text", "Windows desktop.ini",
   "Adobe Photoshop Image", "Apple Desktop Services Store", "ASCII text",
   "Audio file with ID3 version ", "C source", "C source, ASCII text",
   "C++ source", "CSV text", "data", "DIY-Thermocam",
   "ELF 32-bit LSB shared object", "ELF 64-bit LSB shared object", "empty",
   "exported SGML document", "Generic INItialization configuration",
   "GIF image data", "GIMP XCF image data", "HTML document",
   "JPEG image data", "JSON data", "MPEG ADTS", "MS Windows 3.1 help",
   "MS Windows help file Content", "MS Windows shortcut",
   "Non-ISO extended-ASCII text", "Ogg data, Vorbis audio", "PC bitmap",
   "PDF document ", "PE32 executable (DLL)", "PE32+ executable (DLL)",
   "PEM certificate", "PEM RSA private key", "PNG image data",
   "POSIX shell script", "POSIX tar archive", "python 2.7 byte-compiled",
   "RAR archive data", "Ruby script", "SVG Scalable Vector Graphics image",
   "TrueType Font data,", "Web Open Font Format", "WebAssembly", "WebM",
   "Windows WIN.INI", "XML 1.0 document", "Zip archive data",
   "zlib compressed data", "Python script, ASCII text",
   "Python script text executable Python script",
   "Python script, Unicode text", "Mach-O 64-bit x86_64 executable",
   "Mach-O universal binary"]

/-- `IGNORE_BINARIES` (lines 227-275): known auxiliary binary stems. -/
def IGNORE_BINARIES : List String :=
  ["ffmpeg", "zsyncmake", "zsync", "unitycrashhandler64",
   "unitycrashhandler32", "python", "pythonw", "notification_helper",
   "dxwebsetup", "jjs", "qgen", "pack200", "javacpl", "java.exe",
   "unins000", "ue4prereqsetup_x64", "uninstaller", "config", "unpack200",
   "resetconfig", "claunchus", "servertool", "orbd", "nwjc", "policytool",
   "rmiregistry", "cwebp", "ueprereqsetup_x64", "tnameserv", "launcher",
   "subprocess", "ktab", "klist", "kinit", "jp2launcher", "jabswitch",
   "pysemver", "payload", "rmid", "java", "vcredist-x64", "vcredist-x86",
   "vcredist_x64", "vcredist_x86", "javaw", "javaws", "opensavefolder"]

/-- `LINUX_EXECUTABLES` (lines 278-281). -/
def LINUX_EXECUTABLES : List String := ["ELF 32-bit LSB", "ELF 64-bit LSB"]

/-- `WINDOWS_EXECUTABLES` (lines 282-285). -/
def WINDOWS_EXECUTABLES : List String := ["PE32 executable", "PE32+ executable"]

/-- The local `bad` set inside `main`'s Windows branch (lines 464-505);
matched case-sensitively against the derived game name. -/
def bad : List String :=
  ["ffmpeg", "zsyncmake", "zsync", "UnityCrashHandler64",
   "UnityCrashHandler32", "python", "pythonw", "notification_helper",
   "dxwebsetup", "jjs", "javacpl", "java-rmi", "unins000", "Uninstaller",
   "Config", "unpack200", "ResetConfig", "CLaunchUS", "servertool", "orbd",
   "nwjc", "policytool", "rmiregistry", "cwebp", "UEPrereqSetup_x64",
   "tnameserv", "Launcher", "subprocess", "ktab", "klist", "kinit",
   "jp2launcher", "jabswitch", "pysemver", "payload", "rmid", "java",
   "javaw", "javaws", "OpenSaveFolder"]

/-!
## The classifier `FileIdentifier` (lines 287-320)

`FileIdentifier.__init__` computes `_platform`/`_runner` from the file's
libmagic type descriptor and its path; `None`/`None` is modelled as `none`.
-/

/-- `FileIdentifier(path).get_platform_runner()`, with `mime` the libmagic
description `magic.from_file(path)`. -/
def fileIdentifier_platform_runner (path : String) (mime : String) :
    Option (String × String) :=
  if IGNORE_TYPES.any (fun t => strStartsWith mime t) then none
  else if IGNORE_BINARIES.any (fun t => strEndsWith (strLower path) t) then none
  else if IGNORE_BINARIES.any (fun t => strEndsWith (strLower path) (t ++ (".exe"))) then none
  else if LINUX_EXECUTABLES.any (fun t => strStartsWith mime t) then some ("Linux", "linux")
  else if WINDOWS_EXECUTABLES.any (fun t => strStartsWith mime t) then some ("Windows", "wine")
  else some ("Unknown", "unknown")

/-!
## Filesystem model and the scanner `scan_for_supported_files` (lines 323-365)

A directory entry is a regular file (with its libmagic description, unused
by the scanner since the `FileIdentifier` invocation at lines 345-350 is
commented out) or a subdirectory.  An unreadable directory makes
`os.scandir` raise `PermissionError`, modelled by `Except.error ()`; the
source has no handler for it, so the error propagates.
-/

/-- One directory entry: a regular file or a subdirectory.  `readable`
records whether `os.scandir` on the subdirectory succeeds. -/
inductive FSEntry where
  | file (name : String) (mime : String)
  | dir (name : String) (readable : Bool) (children : List FSEntry)

/-- A scan root: readability of the root plus its entries. -/
structure FSDir where
  readable : Bool
  entries : List FSEntry

/-- The cheap filename exclusion at line 352:
`entity.name.lower().endswith(tmp + ".exe")` over `IGNORE_BINARIES`. -/
def cheapExcluded (name : String) : Bool :=
  IGNORE_BINARIES.any (fun tmp => strEndsWith (strLower name) (tmp ++ (".exe")))

/-- `files.add` on a Python set, linearized as an ordered list. -/
def insertSet (files : List String) (p : String) : List String :=
  if p ∈ files then files else files ++ [p]

/-- `files |= sub` on Python sets, linearized. -/
def unionSet (files sub : List String) : List String :=
  sub.foldl insertSet files

mutual

/-- Lines 341-364: processing of one `os.scandir` entry.  A regular file
passes the cheap exclusion and then the extension test
`fn_delimited[-1].lower() in types`; a subdirectory recurses (raising if
unreadable). -/
def scanEntry (fdir : String) (types : List String) :
    FSEntry → Except Unit (List String)
  | .file name _mime =>
    if cheapExcluded name then .ok []
    else if strLower (lastExtComponent name) ∈ types then
      .ok [pathJoin fdir name]
    else .ok []
  | .dir name readable children =>
    if readable then scanList (pathJoin fdir name) types children
    else .error ()

/-- The `for entity in it` loop, accumulating the result set. -/
def scanList (fdir : String) (types : List String) :
    List FSEntry → Except Unit (List String)
  | [] => .ok []
  | e :: rest =>
    match scanEntry fdir types e with
    | .error x => .error x
    | .ok s1 =>
      match scanList fdir types rest with
      | .error x => .error x
      | .ok s2 => .ok (unionSet s1 s2)

end

/-- `scan_for_supported_files(fdir, types)` on a root directory `t`. -/
def scan_for_supported_files (fdir : String) (types : List String)
    (t : FSDir) : Except Unit (List String) :=
  if t.readable then scanList fdir types t.entries else .error ()

/-!
## The data flowing through `main` (lines 367-587)
-/

/-- The parsed command-line arguments used by the loop. -/
structure Args where
  directory : String
  runner : String
  platform : String
  lutris_yml_dir : String
  lutris_game_dir : String
  file_types : List String
  game_options : Option (List (String × String))
  strip_filename : List String
  no_write : Bool
deriving DecidableEq, Repr

/-- One row of the SQLite `games` table, mirroring the `values` dict at
lines 531-553 (columns that `main` always sets to `None` are `Option`
fields holding `none`). -/
structure Row where
  id : Nat
  name : String
  slug : String
  installer_slug : Option String
  parent_slug : Option String
  platform : String
  runner : String
  executable : Option String
  directory : String
  updated : Option Nat
  lastplayed : Nat
  installed : Nat
  installed_at : Nat
  year : Option Nat
  configpath : String
  has_custom_banner : Option Nat
  has_custom_icon : Option Nat
  playtime : Option Nat
  hidden : Nat
  service : Option String
  service_id : Option String
deriving DecidableEq, Repr

/-- The YAML configuration document (lines 510-528): the runner key maps to
an empty dict, `system` is empty, and `game` is an ordered dict. -/
structure GameConfig where
  runnerKey : String
  game : List (String × String)
deriving DecidableEq, Repr

/-- `d[k] = v` preserving Python dict insertion order. -/
def setKey : List (String × String) → String → String → List (String × String)
  | [], k, v => [(k, v)]
  | (k0, v0) :: rest, k, v =>
    if k0 = k then (k, v) :: rest else (k0, v0) :: setKey rest k v

/-- `d.update(opts)` on Python dicts, insertion order preserved. -/
def dictUpdate (d opts : List (String × String)) : List (String × String) :=
  opts.foldl (fun acc kv => setKey acc kv.1 kv.2) d

/-- Everything `main` computes for one candidate file before the
dry-run/live branch. -/
structure Processed where
  game_file : String
  row : Row
  config : GameConfig
  config_file_path : String
deriving DecidableEq, Repr

/-- Lines 437-440: extension strip, token strip, whitespace normalization. -/
def deriveName (args : Args) (game_file : String) : String :=
  let game := stripFromFirstDot (basename game_file)
  let game := args.strip_filename.foldl (fun g token => pyReplace g token (String.mk [])) game
  normalizeWs game

/-- Lines 437-448: `deriveName` plus the Windows placeholder substitution
(`if game == "Game": game = alt_name`, case-sensitive). -/
def mainGameName (args : Args) (game_file : String) : String :=
  let game := deriveName args game_file
  if args.platform = ("Windows") then
    let dirp := pySplitHead game_file
    let alt_name := basename dirp
    if game = ("Game") then alt_name else game
  else game

/-- The slug/configpath value: `slugify(game) + "-" + md5(path)` (lines
450-458). -/
def slugOf (args : Args) (game_file : String) : String :=
  slugify (mainGameName args game_file) ++ ("-") ++ md5hex game_file

/-- The YAML `config` dict (lines 510-528). -/
def mkConfig (args : Args) (game_file : String) : GameConfig :=
  let gameBlock :=
    if args.platform = ("Windows") then
      [(("exe"), game_file), (("working_dir"), pySplitHead game_file)]
    else [(("main_file"), game_file)]
  let gameBlock :=
    match args.game_options with
    | none => gameBlock
    | some opts => dictUpdate gameBlock opts
  { runnerKey := args.runner, game := gameBlock }

/-- The `values` dict (lines 531-553). -/
def mkRow (args : Args) (game_id ts : Nat) (game slug config_file : String) :
    Row :=
  { id := game_id, name := game, slug := slug, installer_slug := none,
    parent_slug := none, platform := args.platform, runner := args.runner,
    executable := none, directory := args.lutris_game_dir, updated := none,
    lastplayed := 0, installed := 1, installed_at := ts, year := none,
    configpath := config_file, has_custom_banner := none,
    has_custom_icon := none, playtime := none, hidden := 0, service := none,
    service_id := none }

/-- Lines 434-553: the per-file computation.  Returns `none` exactly when
the Windows branch hits `continue` because the derived name is in `bad`
(lines 507-508); note that this also skips the `game_id += 1` at line 587. -/
def processGame (args : Args) (game_id ts : Nat) (game_file : String) :
    Option Processed :=
  let game := mainGameName args game_file
  let config_file := slugOf args game_file
  let config_file_path := pathJoin args.lutris_yml_dir (config_file ++ (".yml"))
  if args.platform = ("Windows") && bad.contains game then none
  else some
    { game_file := game_file,
      row := mkRow args game_id ts game config_file config_file,
      config := mkConfig args game_file,
      config_file_path := config_file_path }

/-- The observable outcome of one loop iteration: a dry-run report
(lines 556-560), a committed insert (lines 569-581), or the
`Already have` skip (line 583). -/
inductive RunAction where
  | dryPrint (p : Processed)
  | inserted (p : Processed)
  | alreadyHave (slug : String)
deriving DecidableEq, Repr

/-- The `for game_file in files` loop (lines 432-587).  `store` is the
`games` table, `game_id` the in-memory id counter, `idx` counts loop
iterations (feeding the per-iteration timestamp `tss idx`).  Live mode
checks `SELECT count(*) FROM games WHERE slug = ?` against the current
table and appends the new row; dry-run mode touches nothing. -/
def runLoop (args : Args) (tss : Nat → Nat) :
    List Row → Nat → Nat → List String → List Row × List RunAction
  | store, _game_id, _idx, [] => (store, [])
  | store, game_id, idx, game_file :: rest =>
    match processGame args game_id (tss idx) game_file with
    | none => runLoop args tss store game_id (idx + 1) rest
    | some p =>
      if args.no_write then
        let r := runLoop args tss store (game_id + 1) (idx + 1) rest
        (r.1, RunAction.dryPrint p :: r.2)
      else
        if (store.filter (fun row => row.slug = p.row.slug)).length = 0 then
          let r := runLoop args tss (store ++ [p.row]) (game_id + 1) (idx + 1) rest
          (r.1, RunAction.inserted p :: r.2)
        else
          let r := runLoop args tss store (game_id + 1) (idx + 1) rest
          (r.1, RunAction.alreadyHave p.row.slug :: r.2)

/-- `select max(id) from games` with `None → 0` (lines 411-420). -/
def maxId (store : List Row) : Nat := store.foldl (fun m r => max m r.id) 0

/-- Lines 424-427: the narrowed file-type list computed at run start.
`main` never uses this value again — the scan at line 430 is passed
`args.file_types`. -/
def runFileTypes (args : Args) : List String :=
  if args.platform = ("Windows") then [("exe")] else args.file_types

/-- Line 430: the scan as `main` performs it, over `args.file_types`
(not `runFileTypes args`). -/
def mainScannedFiles (args : Args) (tree : FSDir) : Except Unit (List String) :=
  scan_for_supported_files args.directory args.file_types tree

/-- The whole run of `main` after the database is opened: max-id query,
scan, loop.  A raised `PermissionError` from the scan propagates. -/
def mainRun (args : Args) (tree : FSDir) (store : List Row)
    (tss : Nat → Nat) : Except Unit (List Row × List RunAction) :=
  let game_id := maxId store + 1
  match mainScannedFiles args tree with
  | .error x => .error x
  | .ok files => .ok (runLoop args tss store game_id 0 files)

/-- Rows committed by a run, in commit order. -/
def insertedRows (as : List RunAction) : List Row :=
  as.filterMap (fun a =>
    match a with
    | RunAction.inserted p => some p.row
    | _ => none)

/-- Ids of committed rows, in commit order. -/
def insertedIds (as : List RunAction) : List Nat := (insertedRows as).map Row.id

/-- The rows a dry run reports as would-be written. -/
def dryNewRows (args : Args) (store : List Row) (tss : Nat → Nat)
    (game_id idx : Nat) (files : List String) : List Row :=
  ((runLoop { args with no_write := true } tss store game_id idx files).2).filterMap
    (fun a =>
      match a with
      | RunAction.dryPrint p => some p.row
      | _ => none)

/-- The rows a live run actually inserts. -/
def liveNewRows (args : Args) (store : List Row) (tss : Nat → Nat)
    (game_id idx : Nat) (files : List String) : List Row :=
  insertedRows ((runLoop { args with no_write := false } tss store game_id idx files).2)

/-!
## Mode factorization: the candidate computation shared by both modes
-/

/-- The sequence of `Processed` values the loop builds, with the id counter
and iteration counter advanced exactly as the loop advances them.  This is
the computation shared verbatim by dry-run and live mode. -/
def candList (args : Args) (tss : Nat → Nat) :
    Nat → Nat → List String → List Processed
  | _gid, _idx, [] => []
  | gid, idx, f :: rest =>
    match processGame args gid (tss idx) f with
    | none => candList args tss gid (idx + 1) rest
    | some p => p :: candList args tss (gid + 1) (idx + 1) rest

/-- Live mode's classification of the candidate sequence against the
table: insert when the slug is absent from the (cumulatively updated)
table, otherwise report `Already have`. -/
def liveSplit (store : List Row) : List Processed → List RunAction
  | [] => []
  | p :: rest =>
    if (store.filter (fun row => row.slug = p.row.slug)).length = 0 then
      RunAction.inserted p :: liveSplit (store ++ [p.row]) rest
    else
      RunAction.alreadyHave p.row.slug :: liveSplit store rest

/-!
## Core lemmas about the loop
-/

theorem insertedRows_nil : insertedRows [] = [] := rfl

theorem insertedRows_dryPrint (p : Processed) (as : List RunAction) :
    insertedRows (RunAction.dryPrint p :: as) = insertedRows as := rfl

theorem insertedRows_inserted (p : Processed) (as : List RunAction) :
    insertedRows (RunAction.inserted p :: as) = p.row :: insertedRows as := rfl

theorem insertedRows_alreadyHave (s : String) (as : List RunAction) :
    insertedRows (RunAction.alreadyHave s :: as) = insertedRows as := rfl

/-- The `SELECT count(*)` test is empty exactly when no stored row carries
the slug. -/
theorem filter_slug_empty_iff (store : List Row) (s : String) :
    ((store.filter (fun row => row.slug = s)).length = 0
      ↔ s ∉ store.map Row.slug) := by
  induction store with
  | nil => simp
  | cons r rest ih =>
    by_cases h : r.slug = s
    · simp [List.filter_cons, h]
    · simp [List.filter_cons, h, ih, Ne.symm h]

/-- `processGame` does not look at the dry-run flag. -/
theorem processGame_noWrite (args : Args) (b : Bool) (gid ts : Nat)
    (f : String) :
    processGame { args with no_write := b } gid ts f = processGame args gid ts f := rfl

/-- The slug recorded for a committed candidate is `slugOf`. -/
theorem processGame_row_slug (args : Args) (gid ts : Nat) (f : String)
    (p : Processed) (h : processGame args gid ts f = some p) :
    p.row.slug = slugOf args f := by
  unfold processGame at h
  dsimp only at h
  split at h
  · exact Option.noConfusion h
  · injection h with h2
    subst h2
    rfl

/-- Whether a candidate is skipped by the `bad`-set `continue` depends only
on the arguments and the path, not on the id counter or the timestamp. -/
theorem processGame_none_iff (args : Args) (gid ts : Nat) (f : String) :
    (processGame args gid ts f = none
      ↔ (args.platform = ("Windows") && bad.contains (mainGameName args f)) = true) := by
  unfold processGame
  by_cases hc : (args.platform = ("Windows") && bad.contains (mainGameName args f)) = true
  · simp [hc]
  · simp [hc]

/-- The table after the loop is the incoming table followed by the committed
rows, in commit order: the loop never deletes or reorders rows. -/
theorem runLoop_store (args : Args) (tss : Nat → Nat) :
    ∀ (files : List String) (store : List Row) (gid idx : Nat),
    (runLoop args tss store gid idx files).1
      = store ++ insertedRows (runLoop args tss store gid idx files).2 := by
  intro files
  induction files with
  | nil => intro store gid idx; simp [runLoop, insertedRows]
  | cons f rest ih =>
    intro store gid idx
    simp only [runLoop]
    cases h : processGame args gid (tss idx) f with
    | none => simpa using ih store gid (idx + 1)
    | some p =>
      cases hw : args.no_write with
      | true =>
        simpa [insertedRows_dryPrint] using ih store (gid + 1) (idx + 1)
      | false =>
        by_cases hf : (store.filter (fun row => row.slug = p.row.slug)).length = 0
        · simp only [hf, if_true, insertedRows_inserted, Bool.false_eq_true, if_false]
          rw [ih (store ++ [p.row]) (gid + 1) (idx + 1)]
          simp
        · simp only [hf, if_false, Bool.false_eq_true, insertedRows_alreadyHave]
          exact ih store (gid + 1) (idx + 1)

/-!
## Claim C1 — stale-entry cleanup
-/

/-- A pre-existing catalog row whose configuration document references the
binary `/games/Old/Game.exe`; that binary exists in no scanned tree used
below. -/
def staleRow : Row :=
  { id := 3, name := "Old", slug := "old-a0000000000000000000000000000000",
    installer_slug := none, parent_slug := none, platform := "Windows",
    runner := "wine", executable := none, directory := "/Games",
    updated := none, lastplayed := 0, installed := 1, installed_at := 5,
    year := none, configpath := "old-a0000000000000000000000000000000",
    has_custom_banner := none, has_custom_icon := none, playtime := none,
    hidden := 0, service := none, service_id := none }

def argsC1 : Args :=
  { directory := "/games", runner := "wine", platform := "Windows",
    lutris_yml_dir := "/yml", lutris_game_dir := "/Games",
    file_types := ["exe"], game_options := none, strip_filename := [],
    no_write := false }

/-- C1 counterexample: a live run over a tree in which `staleRow`'s
referenced binary does not exist (the tree is empty) leaves the stale row
in the table and performs no action at all — `main` has no code that
validates existing rows or deletes anything, so the claimed
store-row/configuration deletion never happens. -/
theorem C1_counterexample :
    mainRun argsC1 ⟨true, []⟩ [staleRow] (fun _ => 0)
      = .ok ([staleRow], []) := by rfl

/-- C1 (amended): a run never deletes or validates existing catalog
entries in either mode; the table after a run is exactly the original rows
followed, in commit order, by the rows the run inserted. -/
theorem C1_amended (args : Args) (tree : FSDir) (store : List Row)
    (tss : Nat → Nat) (st : List Row) (as : List RunAction)
    (h : mainRun args tree store tss = .ok (st, as)) :
    st = store ++ insertedRows as := by
  unfold mainRun at h
  cases hs : mainScannedFiles args tree with
  | error x => rw [hs] at h; exact Except.noConfusion h
  | ok files =>
    rw [hs] at h
    injection h with h2
    have h3 := runLoop_store args tss files store (maxId store + 1) 0
    rw [h2] at h3
    exact h3

/-- Witness for `C1_amended` at a concrete input. -/
theorem C1_amended_witness :
    ([staleRow] : List Row) = [staleRow] ++ insertedRows [] :=
  C1_amended argsC1 ⟨true, []⟩ [staleRow] (fun _ => 0) [staleRow] [] (by rfl)

/-!
## Claim C2 — dry-run versus live decisions
-/

def argsC2 : Args :=
  { directory := "/d", runner := "mednafen", platform := "Nintendo NES",
    lutris_yml_dir := "/yml", lutris_game_dir := "/Games",
    file_types := ["nes"], game_options := none, strip_filename := [],
    no_write := false }

/-- The row a previous run committed for `/d/a.nes`. -/
def rowC2 : Row :=
  mkRow argsC2 1 0 (mainGameName argsC2 ("/d/a.nes"))
    (slugOf argsC2 ("/d/a.nes")) (slugOf argsC2 ("/d/a.nes"))

/-- C2 counterexample: with `/d/a.nes` already present in the table, a live
run decides the candidate is already present and inserts nothing, while a
dry run on the same inputs never consults the table and reports the
candidate as a would-be insertion — the two modes do not compute the same
per-candidate decisions. -/
theorem C2_counterexample :
    dryNewRows argsC2 [rowC2] (fun _ => 0) 2 0 ["/d/a.nes"]
      ≠ liveNewRows argsC2 [rowC2] (fun _ => 0) 2 0 ["/d/a.nes"] := by
  decide

/-- C2 (amended): both modes compute the identical per-candidate content —
the same `Processed` sequence `candList` (rows, ids, timestamps,
configuration documents).  A dry run reports exactly that sequence and
leaves the table untouched, without consulting it; a live run additionally
classifies each candidate against the cumulatively updated table
(`liveSplit`), which is where the new/already-present decision is made, and
only there are the mutating steps performed. -/
theorem C2_amended (args : Args) (tss : Nat → Nat) (files : List String)
    (store : List Row) (gid idx : Nat) :
    runLoop { args with no_write := true } tss store gid idx files
      = (store, (candList args tss gid idx files).map RunAction.dryPrint)
    ∧ (runLoop { args with no_write := false } tss store gid idx files).2
      = liveSplit store (candList args tss gid idx files) := by
  induction files generalizing store gid idx with
  | nil => exact ⟨rfl, rfl⟩
  | cons f rest ih =>
    constructor
    · simp only [runLoop, candList, processGame_noWrite]
      cases h : processGame args gid (tss idx) f with
      | none => exact (ih store gid (idx + 1)).1
      | some p =>
        have hd := (ih store (gid + 1) (idx + 1)).1
        simp [hd]
    · simp only [runLoop, candList, processGame_noWrite]
      cases h : processGame args gid (tss idx) f with
      | none => exact (ih store gid (idx + 1)).2
      | some p =>
        simp only [liveSplit]
        by_cases hf : (store.filter (fun row => row.slug = p.row.slug)).length = 0
        · simp only [hf, if_true, Bool.false_eq_true, if_false]
          exact congrArg _ (ih (store ++ [p.row]) (gid + 1) (idx + 1)).2
        · simp only [hf, if_false, Bool.false_eq_true]
          exact congrArg _ (ih store (gid + 1) (idx + 1)).2

/-!
## Claim C3 — is the Classifier applied during the scan?
-/

mutual

/-- Erase the content-type descriptor of every file in an entry. -/
def eraseMimeE : FSEntry → FSEntry
  | .file name _mime => .file name (String.mk [])
  | .dir name readable children => .dir name readable (eraseMimeL children)

/-- Erase the content-type descriptors in a list of entries. -/
def eraseMimeL : List FSEntry → List FSEntry
  | [] => []
  | e :: rest => eraseMimeE e :: eraseMimeL rest

end

mutual

theorem scanEntry_eraseMime (fdir : String) (types : List String) :
    ∀ e : FSEntry,
      scanEntry fdir types (eraseMimeE e) = scanEntry fdir types e
  | .file _name _mime => rfl
  | .dir name readable children => by
    simp only [eraseMimeE, scanEntry]
    rw [scanList_eraseMime (pathJoin fdir name) types children]

theorem scanList_eraseMime (fdir : String) (types : List String) :
    ∀ l : List FSEntry,
      scanList fdir types (eraseMimeL l) = scanList fdir types l
  | [] => rfl
  | e :: rest => by
    simp only [eraseMimeL, scanList]
    rw [scanEntry_eraseMime fdir types e, scanList_eraseMime fdir types rest]

end

/-- C3 counterexample: a regular file that passes the cheap
filename-suffix exclusion but whose `FileIdentifier` classification is
`none` (its libmagic type `ASCII text` is in `IGNORE_TYPES`) still becomes
a candidate: the scanner never invokes the classifier (lines 345-350 are
commented out) and admits the file on its extension alone. -/
theorem C3_counterexample :
    scan_for_supported_files ("/games") [("exe")]
        ⟨true, [FSEntry.file ("foo.exe") ("ASCII text")]⟩
      = .ok [("/games/foo.exe")]
    ∧ fileIdentifier_platform_runner ("/games/foo.exe") ("ASCII text") = none := by
  exact ⟨by rfl, by rfl⟩

/-- C3 (amended): after the cheap filename-suffix exclusion, a file
becomes a candidate based on its extension alone; the Classifier is never
applied, so the scan result is invariant under erasing every file's
content-type descriptor. -/
theorem C3_amended (fdir : String) (types : List String) (t : FSDir) :
    scan_for_supported_files fdir types ⟨t.readable, eraseMimeL t.entries⟩
      = scan_for_supported_files fdir types t := by
  unfold scan_for_supported_files
  cases h : t.readable with
  | false => rfl
  | true => simpa using scanList_eraseMime fdir types t.entries

/-!
## Claim C4 — the "Game" placeholder substitution
-/

def argsC4 : Args :=
  { directory := "/games", runner := "wine", platform := "Windows",
    lutris_yml_dir := "/yml", lutris_game_dir := "/Games",
    file_types := ["exe"], game_options := none, strip_filename := [],
    no_write := false }

/-- C4 counterexample: `/games/Foo/game.exe` derives the name `game`,
which equals the placeholder `Game` case-insensitively, and the claim
therefore requires the recorded displayName to be the parent directory
`Foo`; but the comparison at line 447 is case-sensitive (`game == "Game"`),
so the recorded name stays `game`. -/
theorem C4_counterexample :
    (processGame argsC4 1 0 ("/games/Foo/game.exe")).map (fun p => p.row.name)
        = some ("game")
    ∧ strLower (deriveName argsC4 ("/games/Foo/game.exe")) = ("game")
    ∧ basename (pySplitHead ("/games/Foo/game.exe")) = ("Foo")
    ∧ (("game") : String) ≠ ("Foo") := by
  refine ⟨by decide, by decide, by decide, by decide⟩

/-- C4 (amended): when the platform argument is `Windows` and the derived
name (extension-stripped, token-stripped, whitespace-normalized) is
exactly the string `Game` — the comparison is case-sensitive — the
recorded displayName is the name of the file's parent directory. -/
theorem C4_amended (args : Args) (gid ts : Nat) (f : String) (p : Processed)
    (hW : args.platform = ("Windows")) (hG : deriveName args f = ("Game"))
    (hp : processGame args gid ts f = some p) :
    p.row.name = basename (pySplitHead f) := by
  have hname : mainGameName args f = basename (pySplitHead f) := by
    simp [mainGameName, hW, hG]
  unfold processGame at hp
  dsimp only at hp
  split at hp
  · exact Option.noConfusion hp
  · injection hp with h2
    subst h2
    exact hname

/-- A fallback `Processed` value. -/
def processedDefault : Processed :=
  { game_file := String.mk [],
    row := mkRow argsC4 0 0 (String.mk []) (String.mk []) (String.mk []),
    config := { runnerKey := String.mk [], game := [] },
    config_file_path := String.mk [] }

/-- The value `main` computes for `/games/Foo/Game.exe`. -/
def c4p : Processed :=
  match processGame argsC4 1 0 ("/games/Foo/Game.exe") with
  | some p => p
  | none => processedDefault

/-- Witness for `C4_amended` at a concrete input. -/
theorem C4_amended_witness :
    c4p.row.name = basename (pySplitHead ("/games/Foo/Game.exe")) :=
  C4_amended argsC4 1 0 ("/games/Foo/Game.exe") c4p rfl (by decide) (by rfl)

/-!
## Claim C5 — what decides whether a candidate is "new"
-/

def argsC5A : Args :=
  { directory := "/d", runner := "mednafen", platform := "Nintendo NES",
    lutris_yml_dir := "/yml", lutris_game_dir := "/Games",
    file_types := ["nes"], game_options := none, strip_filename := [],
    no_write := false }

/-- The same invocation with `-s Bar`: token stripping changes the derived
display name. -/
def argsC5B : Args := { argsC5A with strip_filename := [("Bar")] }

/-- The table after a first live run over `/d/Foo Bar.nes`. -/
def storeC5 : List Row :=
  (runLoop argsC5A (fun _ => 0) [] 1 0 [("/d/Foo Bar.nes")]).1

/-- C5 counterexample: the first run commits `/d/Foo Bar.nes` (its
configuration document references exactly that binary path), so the path
is represented among the existing entries; a second run over the same
single path with a different `--strip-filename` derives a different
display name, hence a different slug, and inserts the same path again —
contradicting "never inserted again, regardless of how its display name
was derived in either run". -/
theorem C5_counterexample :
    (liveNewRows argsC5A [] (fun _ => 0) 1 0 [("/d/Foo Bar.nes")]).length = 1
    ∧ ((runLoop argsC5A (fun _ => 0) [] 1 0 [("/d/Foo Bar.nes")]).2).filterMap
        (fun a =>
          match a with
          | RunAction.inserted p => some p.config.game
          | _ => none)
        = [[(("main_file"), ("/d/Foo Bar.nes"))]]
    ∧ (liveNewRows argsC5B storeC5 (fun _ => 0) 2 0 [("/d/Foo Bar.nes")]).length = 1 := by
  refine ⟨by decide, by decide, by decide⟩

/-- C5 (amended): in live mode a candidate is treated as new — its row
appended and its configuration written — exactly when its slug
(normalized derived name joined to the path hash) is absent from the slugs
of the table; otherwise the run reports `Already have` and mutates
nothing.  Membership is tested on slugs, not on binary paths, so the same
path reappears as "new" whenever its derived display name differs. -/
theorem C5_amended (args : Args) (store : List Row) (tss : Nat → Nat)
    (gid idx : Nat) (f : String) (p : Processed)
    (hw : args.no_write = false)
    (hp : processGame args gid (tss idx) f = some p) :
    (runLoop args tss store gid idx [f]
        = (store ++ [p.row], [RunAction.inserted p])
      ↔ p.row.slug ∉ store.map Row.slug)
    ∧ (runLoop args tss store gid idx [f]
        = (store, [RunAction.alreadyHave p.row.slug])
      ↔ p.row.slug ∈ store.map Row.slug) := by
  have hsplit : runLoop args tss store gid idx [f]
      = if (store.filter (fun row => row.slug = p.row.slug)).length = 0
        then (store ++ [p.row], [RunAction.inserted p])
        else (store, [RunAction.alreadyHave p.row.slug]) := by
    simp only [runLoop, hp, hw]
    by_cases hf : (store.filter (fun row => row.slug = p.row.slug)).length = 0
    · simp [hf, runLoop]
    · simp [hf, runLoop]
  rw [hsplit]
  by_cases hf : (store.filter (fun row => row.slug = p.row.slug)).length = 0
  · have hmem := (filter_slug_empty_iff store p.row.slug).mp hf
    constructor
    · simp [hf, hmem]
    · simp [hf, hmem]
  · have hmem : p.row.slug ∈ store.map Row.slug := by
      by_contra hx
      exact hf ((filter_slug_empty_iff store p.row.slug).mpr hx)
    constructor
    · simp [hf, hmem]
    · simp [hf, hmem]

/-- The value `main` computes for `/d/Foo Bar.nes` under `argsC5A`. -/
def c5p : Processed :=
  match processGame argsC5A 1 0 ("/d/Foo Bar.nes") with
  | some p => p
  | none => processedDefault

/-- Witness for `C5_amended` at a concrete input. -/
theorem C5_amended_witness :
    (runLoop argsC5A (fun _ => 0) [] 1 0 [("/d/Foo Bar.nes")]
        = ([] ++ [c5p.row], [RunAction.inserted c5p])
      ↔ c5p.row.slug ∉ ([] : List Row).map Row.slug)
    ∧ (runLoop argsC5A (fun _ => 0) [] 1 0 [("/d/Foo Bar.nes")]
        = ([], [RunAction.alreadyHave c5p.row.slug])
      ↔ c5p.row.slug ∈ ([] : List Row).map Row.slug) :=
  C5_amended argsC5A [] (fun _ => 0) 1 0 ("/d/Foo Bar.nes") c5p rfl (by rfl)

/-!
## Claim C6 — permission errors during the scan
-/

theorem ok_ne_error {ε α : Type} (x : α) (e : ε) :
    (Except.ok x : Except ε α) ≠ Except.error e := fun h => Except.noConfusion h

mutual

/-- Is some directory in the entry unreadable? -/
def entryHasUnreadable : FSEntry → Bool
  | .file _ _ => false
  | .dir _ readable children => !readable || listHasUnreadable children

/-- Is some directory in the list unreadable? -/
def listHasUnreadable : List FSEntry → Bool
  | [] => false
  | e :: rest => entryHasUnreadable e || listHasUnreadable rest

end

mutual

theorem scanEntry_error_iff (fdir : String) (types : List String) :
    ∀ e : FSEntry,
      (scanEntry fdir types e = .error () ↔ entryHasUnreadable e = true)
  | .file name mime => by
    simp only [scanEntry, entryHasUnreadable]
    constructor
    · intro h
      split at h
      · exact absurd h (ok_ne_error _ _)
      · split at h <;> exact absurd h (ok_ne_error _ _)
    · intro h
      exact absurd h (by simp)
  | .dir name readable children => by
    cases readable with
    | false => simp [scanEntry, entryHasUnreadable]
    | true =>
      simp only [scanEntry, entryHasUnreadable, if_true, Bool.not_true,
        Bool.false_or]
      exact scanList_error_iff (pathJoin fdir name) types children

theorem scanList_error_iff (fdir : String) (types : List String) :
    ∀ l : List FSEntry,
      (scanList fdir types l = .error () ↔ listHasUnreadable l = true)
  | [] => by simp [scanList, listHasUnreadable, ok_ne_error]
  | e :: rest => by
    have he := scanEntry_error_iff fdir types e
    have hr := scanList_error_iff fdir types rest
    simp only [scanList, listHasUnreadable]
    cases h1 : scanEntry fdir types e with
    | error x =>
      have : entryHasUnreadable e = true := he.mp (by rw [h1])
      simp [this]
    | ok s1 =>
      have he' : entryHasUnreadable e = false := by
        by_contra hx
        have := he.mpr (by revert hx; cases entryHasUnreadable e <;> simp)
        rw [h1] at this
        exact ok_ne_error _ _ this
      cases h2 : scanList fdir types rest with
      | error y =>
        have : listHasUnreadable rest = true := hr.mp (by rw [h2])
        simp [he', this]
      | ok s2 =>
        have hr' : listHasUnreadable rest = false := by
          by_contra hx
          have := hr.mpr (by revert hx; cases listHasUnreadable rest <;> simp)
          rw [h2] at this
          exact ok_ne_error _ _ this
        simp [he', hr', ok_ne_error]

end

def treeC6 : FSDir :=
  ⟨true, [FSEntry.file ("a.nes") ("data"), FSEntry.dir ("locked") false []]⟩

/-- C6 counterexample: a scan of a tree containing one matching file and
one unreadable subdirectory does not skip the subdirectory and return the
candidate found elsewhere — the `PermissionError` raised by `os.scandir`
propagates (the source has no handler) and the whole scan aborts. -/
theorem C6_counterexample :
    scan_for_supported_files ("/r") [("nes")] treeC6 = .error ()
    ∧ scan_for_supported_files ("/r") [("nes")] treeC6 ≠ .ok [("/r/a.nes")] := by
  refine ⟨rfl, ?_⟩
  intro h
  have h0 : scan_for_supported_files ("/r") [("nes")] treeC6 = Except.error () := rfl
  rw [h] at h0
  exact Except.noConfusion h0

/-- C6 (amended): the scan raises exactly when the root or some directory
reachable in the tree is unreadable; the `PermissionError` is not caught,
so the whole scan aborts and no candidates at all are returned. -/
theorem C6_amended (fdir : String) (types : List String) (t : FSDir) :
    (scan_for_supported_files fdir types t = .error ()
      ↔ (t.readable = false ∨ listHasUnreadable t.entries = true)) := by
  unfold scan_for_supported_files
  cases hr : t.readable with
  | false => simp [ok_ne_error]
  | true => simp [scanList_error_iff fdir types t.entries, ok_ne_error]

/-!
## Claim C7 — idempotence of a second live run
-/

/-- The `bad`-set skip condition (lines 461-508), a function of the
arguments and the path only. -/
def skippedBad (args : Args) (f : String) : Bool :=
  args.platform = ("Windows") && bad.contains (mainGameName args f)

/-- `processGame` succeeds exactly when the candidate is not
`bad`-skipped. -/
theorem processGame_some_iff_not_skipped (args : Args) (gid ts : Nat)
    (f : String) :
    (processGame args gid ts f = none ↔ skippedBad args f = true) :=
  processGame_none_iff args gid ts f

/-- The id recorded for a committed candidate is the counter value. -/
theorem processGame_row_id (args : Args) (gid ts : Nat) (f : String)
    (p : Processed) (h : processGame args gid ts f = some p) :
    p.row.id = gid := by
  unfold processGame at h
  dsimp only at h
  split at h
  · exact Option.noConfusion h
  · injection h with h2
    subst h2
    rfl

/-- Rows present before the loop are still present afterwards. -/
theorem runLoop_store_mono (args : Args) (tss : Nat → Nat)
    (files : List String) (store : List Row) (gid idx : Nat) (r : Row)
    (h : r ∈ store) : r ∈ (runLoop args tss store gid idx files).1 := by
  rw [runLoop_store args tss files store gid idx]
  exact List.mem_append_left _ h

/-- Slugs present before the loop are still present afterwards. -/
theorem runLoop_slug_mono (args : Args) (tss : Nat → Nat)
    (files : List String) (store : List Row) (gid idx : Nat) (s : String)
    (h : s ∈ store.map Row.slug) :
    s ∈ ((runLoop args tss store gid idx files).1.map Row.slug) := by
  obtain ⟨r, hr, hs⟩ := List.mem_map.mp h
  exact List.mem_map.mpr ⟨r, runLoop_store_mono args tss files store gid idx r hr, hs⟩

/-- After a live run, the slug of every scanned, non-skipped file is
present in the resulting table (either it was already there, or the run
inserted it). -/
theorem runLoop_slug_mem (args : Args) (tss : Nat → Nat)
    (hw : args.no_write = false) :
    ∀ (files : List String) (store : List Row) (gid idx : Nat) (f : String),
      f ∈ files → skippedBad args f = false →
      slugOf args f ∈ ((runLoop args tss store gid idx files).1.map Row.slug) := by
  intro files
  induction files with
  | nil => intro store gid idx f hf; exact absurd hf (List.not_mem_nil f)
  | cons f0 rest ih =>
    intro store gid idx f hf hsk
    simp only [runLoop]
    cases h : processGame args gid (tss idx) f0 with
    | none =>
      rcases List.mem_cons.mp hf with hf0 | hfr
      · subst hf0
        rw [processGame_some_iff_not_skipped] at h
        rw [h] at hsk
        exact absurd hsk (by simp)
      · exact ih store gid (idx + 1) f hfr hsk
    | some p =>
      rw [hw]
      by_cases hfl : (store.filter (fun row => row.slug = p.row.slug)).length = 0
      · simp only [hfl, if_true, Bool.false_eq_true, if_false]
        rcases List.mem_cons.mp hf with hf0 | hfr
        · subst hf0
          have hps := processGame_row_slug args gid (tss idx) f p h
          rw [← hps]
          exact runLoop_slug_mono args tss rest (store ++ [p.row]) (gid + 1)
            (idx + 1) p.row.slug
            (List.mem_map.mpr ⟨p.row, List.mem_append_right _ (List.mem_singleton.mpr rfl), rfl⟩)
        · exact ih (store ++ [p.row]) (gid + 1) (idx + 1) f hfr hsk
      · simp only [hfl, if_false, Bool.false_eq_true]
        rcases List.mem_cons.mp hf with hf0 | hfr
        · subst hf0
          have hps := processGame_row_slug args gid (tss idx) f p h
          have hmem : p.row.slug ∈ store.map Row.slug := by
            by_contra hx
            exact hfl ((filter_slug_empty_iff store p.row.slug).mpr hx)
          rw [hps] at hmem
          exact runLoop_slug_mono args tss rest store (gid + 1) (idx + 1) _ hmem
        · exact ih store (gid + 1) (idx + 1) f hfr hsk

/-- A live run over files that are all either `bad`-skipped or already
present (by slug) leaves the table unchanged and inserts nothing. -/
theorem runLoop_no_new (args : Args) (tss : Nat → Nat)
    (hw : args.no_write = false) :
    ∀ (files : List String) (store : List Row) (gid idx : Nat),
      (∀ f ∈ files, skippedBad args f = true ∨ slugOf args f ∈ store.map Row.slug) →
      ∃ as, runLoop args tss store gid idx files = (store, as)
        ∧ insertedRows as = [] := by
  intro files
  induction files with
  | nil => intro store gid idx _; exact ⟨[], rfl, rfl⟩
  | cons f0 rest ih =>
    intro store gid idx hcov
    simp only [runLoop]
    cases h : processGame args gid (tss idx) f0 with
    | none =>
      exact ih store gid (idx + 1) (fun f hf => hcov f (List.mem_cons_of_mem f0 hf))
    | some p =>
      rw [hw]
      have hsk : skippedBad args f0 = false := by
        by_contra hx
        have : skippedBad args f0 = true := by
          revert hx; cases skippedBad args f0 <;> simp
        rw [← processGame_some_iff_not_skipped args gid (tss idx) f0] at this
        rw [h] at this
        exact Option.noConfusion this
      have hmem : slugOf args f0 ∈ store.map Row.slug := by
        rcases hcov f0 (List.mem_cons_self f0 rest) with hc | hc
        · rw [hsk] at hc; exact absurd hc (by simp)
        · exact hc
      have hps := processGame_row_slug args gid (tss idx) f0 p h
      have hfl : ¬ (store.filter (fun row => row.slug = p.row.slug)).length = 0 := by
        intro hx
        have := (filter_slug_empty_iff store p.row.slug).mp hx
        rw [hps] at this
        exact this hmem
      simp only [hfl, if_false, Bool.false_eq_true]
      obtain ⟨as, h1, h2⟩ := ih store (gid + 1) (idx + 1)
        (fun f hf => hcov f (List.mem_cons_of_mem f0 hf))
      refine ⟨RunAction.alreadyHave p.row.slug :: as, ?_, ?_⟩
      · rw [h1]
      · rw [insertedRows_alreadyHave, h2]

/-- C7 (confirmed): a second live run against the unchanged tree and the
table produced by the first run performs zero insertions; since the
program performs no deletions at all, the table after the second run
equals the table after the first. -/
theorem C7_idempotent (args : Args) (tree : FSDir) (store : List Row)
    (tss1 tss2 : Nat → Nat) (st1 : List Row) (as1 : List RunAction)
    (hw : args.no_write = false)
    (h1 : mainRun args tree store tss1 = .ok (st1, as1)) :
    ∃ as2, mainRun args tree st1 tss2 = .ok (st1, as2)
      ∧ insertedRows as2 = [] := by
  unfold mainRun at h1 ⊢
  cases hs : mainScannedFiles args tree with
  | error x => rw [hs] at h1; exact Except.noConfusion h1
  | ok files =>
    rw [hs] at h1
    injection h1 with h2
    have hcov : ∀ f ∈ files,
        skippedBad args f = true ∨ slugOf args f ∈ st1.map Row.slug := by
      intro f hf
      by_cases hsk : skippedBad args f = true
      · exact Or.inl hsk
      · right
        have hsk' : skippedBad args f = false := by
          revert hsk; cases skippedBad args f <;> simp
        have hm := runLoop_slug_mem args tss1 hw files store
          (maxId store + 1) 0 f hf hsk'
        rw [h2] at hm
        exact hm
    obtain ⟨as2, ha, hb⟩ := runLoop_no_new args tss2 hw files st1
      (maxId st1 + 1) 0 hcov
    refine ⟨as2, ?_, hb⟩
    dsimp only
    rw [ha]

def treeC7 : FSDir := ⟨true, [FSEntry.file ("Foo Bar.nes") ("data")]⟩

/-- The outcome of the first run in the witness below. -/
def c7res : List Row × List RunAction :=
  match mainRun argsC5A treeC7 [] (fun _ => 0) with
  | .ok r => r
  | .error _ => ([], [])

/-- Witness for `C7_idempotent` at a concrete input. -/
theorem C7_idempotent_witness :
    ∃ as2, mainRun argsC5A treeC7 c7res.1 (fun _ => 1) = .ok (c7res.1, as2)
      ∧ insertedRows as2 = [] :=
  C7_idempotent argsC5A treeC7 [] (fun _ => 0) (fun _ => 1) c7res.1 c7res.2
    rfl (by rfl)

/-!
## Claim C9 — id allocation
-/

/-- Every id committed by the loop is at least the initial counter value. -/
theorem insertedIds_lb (args : Args) (tss : Nat → Nat) :
    ∀ (files : List String) (store : List Row) (gid idx : Nat) (i : Nat),
      i ∈ insertedIds ((runLoop args tss store gid idx files).2) → gid ≤ i := by
  intro files
  induction files with
  | nil => intro store gid idx i hi; exact absurd hi (by simp [runLoop, insertedIds, insertedRows])
  | cons f0 rest ih =>
    intro store gid idx i hi
    simp only [runLoop] at hi
    cases h : processGame args gid (tss idx) f0 with
    | none =>
      rw [h] at hi
      exact ih store gid (idx + 1) i hi
    | some p =>
      rw [h] at hi
      cases hw : args.no_write with
      | true =>
        rw [hw] at hi
        simp only [if_true] at hi
        have := ih store (gid + 1) (idx + 1) i (by
          simpa [insertedIds, insertedRows] using hi)
        omega
      | false =>
        rw [hw] at hi
        simp only [Bool.false_eq_true, if_false] at hi
        by_cases hfl : (store.filter (fun row => row.slug = p.row.slug)).length = 0
        · simp only [hfl, if_true] at hi
          simp only [insertedIds, insertedRows, List.filterMap_cons] at hi
          rcases List.mem_map.mp hi with ⟨r, hr, hid⟩
          rcases List.mem_cons.mp hr with hr0 | hr1
          · subst hr0
            rw [← hid, processGame_row_id args gid (tss idx) f0 p h]
          · have := ih (store ++ [p.row]) (gid + 1) (idx + 1) i
              (List.mem_map.mpr ⟨r, hr1, hid⟩)
            omega
        · simp only [hfl, if_false] at hi
          have := ih store (gid + 1) (idx + 1) i (by
            simpa [insertedIds, insertedRows] using hi)
          omega

/-- Committed ids are strictly increasing in commit order. -/
theorem insertedIds_sorted (args : Args) (tss : Nat → Nat) :
    ∀ (files : List String) (store : List Row) (gid idx : Nat),
      List.Pairwise (fun i j => i < j)
        (insertedIds ((runLoop args tss store gid idx files).2)) := by
  intro files
  induction files with
  | nil => intro store gid idx; simp [runLoop, insertedIds, insertedRows]
  | cons f0 rest ih =>
    intro store gid idx
    simp only [runLoop]
    cases h : processGame args gid (tss idx) f0 with
    | none => exact ih store gid (idx + 1)
    | some p =>
      cases hw : args.no_write with
      | true =>
        simp only [if_true]
        simpa [insertedIds, insertedRows] using ih store (gid + 1) (idx + 1)
      | false =>
        simp only [Bool.false_eq_true, if_false]
        by_cases hfl : (store.filter (fun row => row.slug = p.row.slug)).length = 0
        · simp only [hfl, if_true]
          simp only [insertedIds, insertedRows, List.filterMap_cons, List.map_cons]
          refine List.Pairwise.cons ?_ (by
            simpa [insertedIds, insertedRows] using ih (store ++ [p.row]) (gid + 1) (idx + 1))
          intro j hj
          have hlb := insertedIds_lb args tss rest (store ++ [p.row]) (gid + 1) (idx + 1) j
            (by simpa [insertedIds, insertedRows] using hj)
          have hid := processGame_row_id args gid (tss idx) f0 p h
          rw [hid]
          omega
        · simp only [hfl, if_false]
          simpa [insertedIds, insertedRows] using ih store (gid + 1) (idx + 1)

/-- C9 (confirmed): with the counter seeded from `select max(id)` plus one,
every committed row's id exceeds the run-start maximum, and ids strictly
increase in commit order (hence are unique), for every iteration order of
the candidate set. -/
theorem C9_ids_monotonic (args : Args) (store : List Row) (tss : Nat → Nat)
    (files : List String) :
    List.Pairwise (fun i j => i < j)
        (insertedIds ((runLoop args tss store (maxId store + 1) 0 files).2))
    ∧ ∀ i ∈ insertedIds ((runLoop args tss store (maxId store + 1) 0 files).2),
        maxId store < i := by
  constructor
  · exact insertedIds_sorted args tss files store (maxId store + 1) 0
  · intro i hi
    have := insertedIds_lb args tss files store (maxId store + 1) 0 i hi
    omega

/-!
## Claim C10 — the platform argument and the scan
-/

/-- C10 (confirmed): the narrowing at lines 426-427 sets the local
`file_types` to `["exe"]` for platform `Windows`, but the scan at line 430
receives `args.file_types`, so the scanned file set is identical across
invocations differing only in the platform argument. -/
theorem C10_scan_platform_independent (args : Args) (p : String)
    (tree : FSDir) :
    mainScannedFiles { args with platform := p } tree
        = mainScannedFiles args tree
    ∧ runFileTypes { args with platform := ("Windows") } = [("exe")] :=
  ⟨rfl, rfl⟩

/-!
## Claim C8 — slug injectivity

The slug is `slugify(displayName) ++ "-" ++ md5hex(path)`.  For two paths
with the same display name, slug distinctness is exactly distinctness of
the MD5 digests — and MD5, a function into a fixed 128-bit codomain,
cannot be injective on the infinitely many absolute paths sharing one
display name.
-/

/-- An absolute POSIX path: first character is a slash. -/
def isAbsolutePath (p : String) : Bool :=
  match p.data with
  | [] => false
  | c :: _ => c = '/'

/-- String extensionality via the underlying character list. -/
theorem string_ext {s t : String} (h : s.data = t.data) : s = t := by
  cases s
  cases t
  exact congrArg String.mk h

theorem w32_lt (x : Nat) : w32 x < 4294967296 := Nat.mod_lt _ (by norm_num)

theorem md5Block_bounds (st : MD5State) (bl : List Nat) :
    (md5Block st bl).a < 4294967296 ∧ (md5Block st bl).b < 4294967296
    ∧ (md5Block st bl).c < 4294967296 ∧ (md5Block st bl).d < 4294967296 := by
  unfold md5Block
  exact ⟨w32_lt _, w32_lt _, w32_lt _, w32_lt _⟩

theorem foldl_md5Block_bounds (l : List (List Nat)) :
    ∀ st : MD5State,
      st.a < 4294967296 → st.b < 4294967296 → st.c < 4294967296 →
      st.d < 4294967296 →
      ((l.foldl md5Block st).a < 4294967296
        ∧ (l.foldl md5Block st).b < 4294967296
        ∧ (l.foldl md5Block st).c < 4294967296
        ∧ (l.foldl md5Block st).d < 4294967296) := by
  induction l with
  | nil => intro st h1 h2 h3 h4; exact ⟨h1, h2, h3, h4⟩
  | cons bl rest ih =>
    intro st _ _ _ _
    have hb := md5Block_bounds st bl
    exact ih (md5Block st bl) hb.1 hb.2.1 hb.2.2.1 hb.2.2.2

/-- Every MD5 state component is below `2^32`. -/
theorem md5Quad_bounds (s : String) :
    (md5Quad s).a < 4294967296 ∧ (md5Quad s).b < 4294967296
    ∧ (md5Quad s).c < 4294967296 ∧ (md5Quad s).d < 4294967296 :=
  foldl_md5Block_bounds _ md5Init (by norm_num [md5Init]) (by norm_num [md5Init])
    (by norm_num [md5Init]) (by norm_num [md5Init])

/-- Pack an MD5 state into one natural number below `2^128`. -/
def md5Pack (st : MD5State) : Nat :=
  st.a + 4294967296 * st.b + 18446744073709551616 * st.c
    + 79228162514264337593543950336 * st.d

/-- The family of absolute paths `/a/Foo.xx…x`: pairwise distinct, all
deriving the display name `Foo`. -/
def c8path (n : Nat) : String :=
  String.mk (['/', 'a', '/', 'F', 'o', 'o', '.'] ++ List.replicate n ('x'))

def argsC8 : Args :=
  { directory := "/a", runner := "mednafen", platform := "Nintendo NES",
    lutris_yml_dir := "/yml", lutris_game_dir := "/Games",
    file_types := ["nes"], game_options := none, strip_filename := [],
    no_write := false }

theorem takeWhile_replicate_append (p : Char → Bool) (c : Char)
    (hc : p c = true) :
    ∀ (n : Nat) (l : List Char),
      List.takeWhile p (List.replicate n c ++ l)
        = List.replicate n c ++ List.takeWhile p l := by
  intro n
  induction n with
  | zero => intro l; simp
  | succ k ih =>
    intro l
    simp [List.replicate_succ, List.takeWhile_cons, hc, ih]

theorem c8path_basename (n : Nat) :
    basename (c8path n)
      = String.mk (['F', 'o', 'o', '.'] ++ List.replicate n ('x')) := by
  unfold basename c8path
  refine congrArg String.mk ?_
  show (((['/', 'a', '/', 'F', 'o', 'o', '.'] ++ List.replicate n ('x')).reverse.takeWhile
      (fun c => decide (c ≠ '/'))).reverse)
    = ['F', 'o', 'o', '.'] ++ List.replicate n ('x')
  rw [List.reverse_append, List.reverse_replicate]
  show ((List.replicate n ('x') ++ ['.', 'o', 'o', 'F', '/', 'a', '/']).takeWhile
      (fun c => decide (c ≠ '/'))).reverse
    = ['F', 'o', 'o', '.'] ++ List.replicate n ('x')
  rw [takeWhile_replicate_append _ ('x') (by decide)]
  show (List.replicate n ('x') ++ ['.', 'o', 'o', 'F']).reverse
    = ['F', 'o', 'o', '.'] ++ List.replicate n ('x')
  rw [List.reverse_append, List.reverse_replicate]
  rfl

/-- Every member of the family derives the display name `Foo`. -/
theorem c8path_name (n : Nat) : mainGameName argsC8 (c8path n) = ("Foo") := by
  show deriveName argsC8 (c8path n) = ("Foo")
  unfold deriveName
  rw [c8path_basename n]
  show normalizeWs (stripFromFirstDot
    (String.mk (['F', 'o', 'o', '.'] ++ List.replicate n ('x')))) = ("Foo")
  rfl

theorem c8path_inj {x y : Nat} (h : c8path x = c8path y) : x = y := by
  unfold c8path at h
  have hd : ['/', 'a', '/', 'F', 'o', 'o', '.'] ++ List.replicate x ('x')
      = ['/', 'a', '/', 'F', 'o', 'o', '.'] ++ List.replicate y ('x') :=
    congrArg String.data h
  have h2 := List.append_cancel_left hd
  have h3 := congrArg List.length h2
  simpa using h3

theorem c8path_abs (n : Nat) : isAbsolutePath (c8path n) = true := rfl

/-- The digest family, packed into the finite codomain `Fin 2^128`. -/
def c8digest (n : Nat) : Fin 340282366920938463463374607431768211456 :=
  ⟨md5Pack (md5Quad (c8path n)), by
    have h := md5Quad_bounds (c8path n)
    unfold md5Pack
    omega⟩

theorem md5Pack_inj (s1 s2 : MD5State)
    (ha1 : s1.a < 4294967296) (hb1 : s1.b < 4294967296)
    (hc1 : s1.c < 4294967296) (hd1 : s1.d < 4294967296)
    (ha2 : s2.a < 4294967296) (hb2 : s2.b < 4294967296)
    (hc2 : s2.c < 4294967296) (hd2 : s2.d < 4294967296)
    (h : md5Pack s1 = md5Pack s2) : s1 = s2 := by
  cases s1 with
  | mk a1 b1 c1 d1 =>
    cases s2 with
    | mk a2 b2 c2 d2 =>
      simp only [md5Pack] at h
      simp only at ha1 hb1 hc1 hd1 ha2 hb2 hc2 hd2
      have : a1 = a2 ∧ b1 = b2 ∧ c1 = c2 ∧ d1 = d2 := by omega
      simp [this.1, this.2.1, this.2.2.1, this.2.2.2]

theorem md5hex_congr {s1 s2 : String} (h : md5Quad s1 = md5Quad s2) :
    md5hex s1 = md5hex s2 := by
  unfold md5hex
  rw [h]

/-- C8 counterexample (negation of the claim): it is not the case that any
two distinct absolute paths with the same derived display name always get
different slugs.  The family `/a/Foo.xx…x` has one display name and
infinitely many members, while `md5Pack ∘ md5Quad` lands in the finite
type `Fin 2^128`; by the pigeonhole principle two distinct members share
an MD5 digest, hence an identical slug. -/
theorem C8_counterexample :
    ¬ (∀ (args : Args) (p1 p2 : String),
        isAbsolutePath p1 = true → isAbsolutePath p2 = true → p1 ≠ p2 →
        deriveName args p1 = deriveName args p2 →
        slugOf args p1 ≠ slugOf args p2) := by
  intro hclaim
  obtain ⟨x, y, hxy, hf⟩ := Finite.exists_ne_map_eq_of_infinite c8digest
  have hpack : md5Pack (md5Quad (c8path x)) = md5Pack (md5Quad (c8path y)) :=
    congrArg Fin.val hf
  have hquad : md5Quad (c8path x) = md5Quad (c8path y) := by
    have h1 := md5Quad_bounds (c8path x)
    have h2 := md5Quad_bounds (c8path y)
    exact md5Pack_inj _ _ h1.1 h1.2.1 h1.2.2.1 h1.2.2.2
      h2.1 h2.2.1 h2.2.2.1 h2.2.2.2 hpack
  have hslug : slugOf argsC8 (c8path x) = slugOf argsC8 (c8path y) := by
    unfold slugOf
    rw [c8path_name x, c8path_name y, md5hex_congr hquad]
  have hname : deriveName argsC8 (c8path x) = deriveName argsC8 (c8path y) := by
    show mainGameName argsC8 (c8path x) = mainGameName argsC8 (c8path y)
    rw [c8path_name x, c8path_name y]
  exact hclaim argsC8 (c8path x) (c8path y) (c8path_abs x) (c8path_abs y)
    (fun he => hxy (c8path_inj he)) hname hslug

/-- C8 (amended): for any two paths whose derived display names agree, the
slugs differ whenever the MD5 digests of the paths differ — the slug is the
normalized display name joined by a dash to the path hash, so with equal
name prefixes slug equality is exactly digest equality.  (Unconditional
injectivity is impossible: MD5 has colliding inputs.) -/
theorem C8_amended (args : Args) (p1 p2 : String)
    (hname : mainGameName args p1 = mainGameName args p2)
    (hhash : md5hex p1 ≠ md5hex p2) :
    slugOf args p1 ≠ slugOf args p2 := by
  unfold slugOf
  rw [hname]
  intro h
  apply hhash
  have hd := congrArg String.data h
  simp only [String.data_append] at hd
  have h2 := List.append_cancel_left (List.append_cancel_left
    ((List.append_assoc _ _ _).symm.trans (hd.trans (List.append_assoc _ _ _))))
  exact string_ext h2

/-- Witness for `C8_amended` at concrete inputs: `/a/Foo.1` and `/a/Foo.2`
derive the same display name and have different digests. -/
theorem C8_amended_witness :
    slugOf argsC8 ("/a/Foo.1") ≠ slugOf argsC8 ("/a/Foo.2") :=
  C8_amended argsC8 ("/a/Foo.1") ("/a/Foo.2") (by rfl) (by decide)
